import Mathlib

/-!
# ScummVM: SCI32 text scaling helpers and the MADS Nebular main menu

A shallow embedding of

* `engines/sci/graphics/text32.h` : the inline helpers `GfxText32::scaleUpWidth` and
  `GfxText32::scaleRect`, and the measuring, line breaking and bitmap entry points that the
  header declares;
* `engines/mads/nebular/menu_nebular.cpp` : the `MainMenu` state machine (`doFrame`, `onEvent`,
  `addSpriteSlot`, `unhighlightItem`, `handleAction`).

C++ `int` arithmetic is modelled on `Int` without overflow; C++ `/` on integers is `Int.tdiv`
(truncation toward zero). Definitions come first, theorems follow.
-/

/-! ## Definitions: `engines/sci/graphics/text32.h` -/

namespace Sci

/-- The inline `GfxText32::scaleUpWidth` (text32.h, lines 143-146):
`return (value * scriptWidth + _scaledWidth - 1) / _scaledWidth;`
`scriptWidth` is read from the current frame buffer and `scaledWidth` is the member
`_scaledWidth`; both are passed explicitly. -/
def scaleUpWidth (scriptWidth scaledWidth value : Int) : Int :=
  Int.tdiv (value * scriptWidth + scaledWidth - 1) scaledWidth

/-- The least integer that is not below the rational `n / d` (for `d > 0`), written with the
floor division of `Int`: `ceil (n / d) = - floor (-n / d)`. Used only to state results. -/
def ceilDiv (n d : Int) : Int :=
  -((-n) / d)

/-- Modelled from the spec: `GfxText32::getTextWidth(index, length)` is declared in text32.h
("Gets the pixel width of a substring of the currently loaded text, without scaling") but its
body is not in the header. Spec 4.2: "sums per-character widths for a contiguous run; returns a
single scalar". `charWidth` is the per-character width of the active font (`getCharWidth`
returns `uint16`, hence `Nat`); `text` is the loaded text `_text`. -/
def getTextWidth (charWidth : Char → Nat) (text : List Char) (index length : Nat) : Int :=
  ((((text.drop index).take length).map charWidth).sum : Nat)

/-- Modelled from the spec: the overload `GfxText32::getTextWidth(text, index, length)` is
declared in text32.h ("with scaling") but its body is not in the header. Spec 4.2: the entry
point "over an arbitrary externally supplied string including a scale conversion": the supplied
string becomes the loaded text, is measured, and the width goes through `scaleUpWidth`. -/
def getTextWidthOfString (charWidth : Char → Nat) (scriptWidth scaledWidth : Int)
    (text : List Char) (index length : Nat) : Int :=
  scaleUpWidth scriptWidth scaledWidth (getTextWidth charWidth text index length)

/-- The four coordinates of `Common::Rect`. -/
structure Rect where
  left : Int
  top : Int
  right : Int
  bottom : Int
deriving DecidableEq, Repr

/-- The check `Common::Rect::isValidRect`: `left <= right && top <= bottom`, the invariant the
constructors of `Common::Rect` assert. -/
def Rect.isValidRect (r : Rect) : Prop :=
  r.left ≤ r.right ∧ r.top ≤ r.bottom

instance (r : Rect) : Decidable r.isValidRect := by
  unfold Rect.isValidRect
  infer_instance

/-- The type `Ratio` of text32.h (a `Common::Rational`): a numerator over a denominator. The
header builds `Ratio scaleX(_scaledWidth, scriptWidth)`. -/
structure Rational where
  num : Int
  den : Int
deriving DecidableEq, Repr

/-- Modelled from the spec: the product of a coordinate and a ratio, brought back to an integer
coordinate. `Common::Rational` is not under `src/`; spec 4.1 says `scaleRect` "multiplies each
coordinate", and a `Common::Rect` holds integers, so the exact product `c * num / den` is
converted with the C++ integer division (truncation toward zero). -/
def Rational.mulCoord (r : Rational) (c : Int) : Int :=
  Int.tdiv (c * r.num) r.den

/-- Modelled from the spec: the helper `mul(rect, ratioX, ratioY)` called by `scaleRect` is not
under `src/`. Spec 4.1: "multiplies each coordinate independently" with the X ratio for the
horizontal and the Y ratio for the vertical coordinates. -/
def mul (rect : Rect) (ratioX ratioY : Rational) : Rect :=
  { left := ratioX.mulCoord rect.left
    top := ratioY.mulCoord rect.top
    right := ratioX.mulCoord rect.right
    bottom := ratioY.mulCoord rect.bottom }

/-- The inline `GfxText32::scaleRect` (text32.h, lines 171-179). `scriptWidth` and `scriptHeight` are read
from the current frame buffer, `scaledWidth` and `scaledHeight` are the members `_scaledWidth`
and `_scaledHeight`. -/
def scaleRect (scriptWidth scriptHeight scaledWidth scaledHeight : Int) (rect : Rect) : Rect :=
  let scaledRect := rect
  let scaleX : Rational := { num := scaledWidth, den := scriptWidth }
  let scaleY : Rational := { num := scaledHeight, den := scriptHeight }
  mul scaledRect scaleX scaleY

/-- Modelled from the spec: the scan of `GfxText32::getLongest` (declared in text32.h, body not
in the header), spec 4.2 `breakLine`. `i` is the index of the head of the remaining characters,
`acc` the accumulated width of the characters `start .. i - 1`, `lastWs` the last whitespace
position seen. The result is the index of the first character of the next line.
* the text ends before `maxWidth` is exceeded: the whole remainder is the line (policy 3);
* the width up to and including the current character exceeds `maxWidth`:
  - a whitespace was seen at `j`: break there, the whitespace is consumed (policy 1);
  - none was seen and the current character is itself a whitespace: the token before it fits,
    the line ends here and the whitespace is consumed (policy 1);
  - none was seen: forced break before the current character, which is the first one that
    does not fit, but never with zero characters consumed (policy 2). -/
def getLongestScan (charWidth : Char → Nat) (maxWidth : Int) (start : Nat) :
    List Char → Nat → Nat → Option Nat → Nat
  | [], i, _, _ => i
  | c :: rest, i, acc, lastWs =>
    if maxWidth < ((acc + charWidth c : Nat) : Int) then
      match lastWs with
      | some j => j + 1
      | none => if c.isWhitespace then i + 1 else start + max 1 (i - start)
    else
      getLongestScan charWidth maxWidth start rest (i + 1) (acc + charWidth c)
        (if c.isWhitespace then some i else lastWs)

/-- Modelled from the spec: `GfxText32::getLongest(charIndex, maxWidth)` over the loaded text.
Returns the pair of the number of characters consumed and the new value of `*charIndex`
(spec 4.2: "Returns the count of characters consumed and advances the caller's index to the
first character of the next line"). -/
def getLongest (charWidth : Char → Nat) (text : List Char) (charIndex : Nat) (maxWidth : Int) :
    Nat × Nat :=
  let next := getLongestScan charWidth maxWidth charIndex (text.drop charIndex) charIndex 0 none
  (next - charIndex, next)

/-- Iterating `getLongest` until the text is exhausted (spec 4.2 `measureBlock`: "repeatedly
applies `breakLine` until the text is exhausted"): the list of the line starts, or `none` when
`fuel` calls were not enough. -/
def lineStarts (charWidth : Char → Nat) (text : List Char) (maxWidth : Int) :
    Nat → Nat → Option (List Nat)
  | 0, charIndex => if text.length ≤ charIndex then some [] else none
  | fuel + 1, charIndex =>
    if text.length ≤ charIndex then some []
    else
      (lineStarts charWidth text maxWidth fuel
        (getLongest charWidth text charIndex maxWidth).2).map (fun ls => charIndex :: ls)

/-- Modelled from the spec: `Common::Rect::clip` against the bitmap rectangle
`(0, 0, width, height)`; `Common::Rect` is not under `src/`. Spec 4.3 step 3: "Clip `rect` to
`[0,width) x [0,height)`": every coordinate is brought into the range of its axis. -/
def Rect.clipToBitmap (r : Rect) (width height : Int) : Rect :=
  { left := min (max r.left 0) width
    top := min (max r.top 0) height
    right := min (max r.right 0) width
    bottom := min (max r.bottom 0) height }

/-- Modelled from the spec: the text rect stored in `_textRect` and returned by the
`createFontBitmap` overload with a flat background (declared in text32.h, body not in the
header). Spec 4.3 `createFlatBitmap` steps 3 and 5: the requested rect clipped to the bitmap.
The dimensions are unsigned (text32.h: "These are unsigned in the actual engine"). -/
def createFontBitmap (width height : Nat) (rect : Rect) : Rect :=
  rect.clipToBitmap width height

/-- Modelled from the spec: the text rect of the `createFontBitmap` overload with a view
background. Spec 4.3 `createImageBitmap`: "identical to the above except the background is
populated by copying `sourceImage`'s pixels"; the bitmap takes the dimensions of the cel. -/
def createFontBitmapCel (celWidth celHeight : Nat) (rect : Rect) : Rect :=
  createFontBitmap celWidth celHeight rect

end Sci

/-! ## Definitions: `engines/mads/nebular/menu_nebular.cpp` -/

namespace MADS
namespace Nebular

/-- The constant `MADS_MENU_ANIM_DELAY` (menu_nebular.cpp, line 36). -/
def MADS_MENU_ANIM_DELAY : Nat := 70

/-- The argument of `MainMenu::handleAction`: one of the named `MADSGameAction` values used by
`onEvent`, or the cast `(MADSGameAction)_selectedIndex` used by `doFrame`. -/
inductive Action where
  | START_GAME
  | RESUME_GAME
  | SHOW_INTRO
  | CREDITS
  | QUOTES
  | EXIT
  | ofSelected (selectedIndex : Int)
deriving DecidableEq, Repr

/-- The key codes `MainMenu::onEvent` distinguishes; `other` is the `default:` case. -/
inductive KeyCode where
  | KEYCODE_ESCAPE
  | KEYCODE_F1
  | KEYCODE_F2
  | KEYCODE_F3
  | KEYCODE_F4
  | KEYCODE_F5
  | KEYCODE_F6
  | KEYCODE_s
  | other
deriving DecidableEq, Repr

/-- The events `MainMenu::onEvent` distinguishes. The mouse events carry the value that
`getHighlightedItem(event.mouse)` returns for their position (`ScreenObjects::scan` is not
under `src/`); `other` is the `default:` case of the second switch. -/
inductive Event where
  | EVENT_KEYDOWN (keycode : KeyCode)
  | EVENT_LBUTTONDOWN (item : Int)
  | EVENT_MOUSEMOVE (item : Int)
  | EVENT_LBUTTONUP
  | other
deriving DecidableEq, Repr

/-- The fields of `MainMenu` (with those inherited from `MenuView`), and what the menu does to
its collaborators: the visibility of the cursor (`EventsManager`), the actions passed to
`handleAction`, and for every call of `addSpriteSlot` the index `_menuItemIndex` at which it
reads `_menuItems` and `_menuItemIndexes`. -/
structure MainMenu where
  breakFlag : Bool
  redrawFlag : Bool
  delayTimeout : Nat
  menuItemIndex : Int
  frameIndex : Int
  skipFlag : Bool
  highlightedIndex : Int
  selectedIndex : Int
  buttonDown : Bool
  cursorVisible : Bool
  actions : List Action
  slotReads : List Int
deriving DecidableEq, Repr

/-- The constructors `MenuView::MenuView` and `MainMenu::MainMenu` (lines 38-42 and 76-86),
with the cursor hidden as `MenuView::show` leaves it before the first `doFrame`. -/
def MainMenu.init : MainMenu :=
  { breakFlag := false
    redrawFlag := true
    delayTimeout := 0
    menuItemIndex := -1
    frameIndex := 0
    skipFlag := false
    highlightedIndex := -1
    selectedIndex := -1
    buttonDown := false
    cursorVisible := false
    actions := []
    slotReads := [] }

/-- The method `MainMenu::addSpriteSlot` (lines 173-193): reads `_menuItems[_menuItemIndex]` and
`_menuItemIndexes[_menuItemIndex]`, adds a sprite slot and sets `_redrawFlag`. -/
def addSpriteSlot (m : MainMenu) : MainMenu :=
  { m with slotReads := m.slotReads ++ [m.menuItemIndex], redrawFlag := true }

/-- The method `MainMenu::handleAction` (lines 321-369): hides the cursor, sets `_breakFlag` and hands the
action to the engine. -/
def handleAction (m : MainMenu) (action : Action) : MainMenu :=
  { m with cursorVisible := false, breakFlag := true, actions := m.actions ++ [action] }

/-- The method `MainMenu::unhighlightItem` (lines 310-319). -/
def unhighlightItem (m : MainMenu) : MainMenu :=
  let m := { m with menuItemIndex := m.highlightedIndex }
  let m := { m with frameIndex := 0 }
  let m := addSpriteSlot m
  let m := { m with menuItemIndex := 6 }
  { m with highlightedIndex := -1 }

/-- The loop of lines 129-133, entered after `_menuItemIndex = 0`:
`for (...; _menuItemIndex < 6; ++_menuItemIndex) if (_menuItemIndex != _selectedIndex)
addSpriteSlot();` with one unit of fuel per iteration. -/
def rotateLoop : Nat → MainMenu → MainMenu
  | 0, m => m
  | fuel + 1, m =>
    if m.menuItemIndex < 6 then
      let m := if m.menuItemIndex ≠ m.selectedIndex then addSpriteSlot m else m
      rotateLoop fuel { m with menuItemIndex := m.menuItemIndex + 1 }
    else m

/-- The loop of lines 148-152:
`for (; _menuItemIndex < 6; ++_menuItemIndex) { _frameIndex = 0; addSpriteSlot(); }`
with one unit of fuel per iteration. -/
def skipLoop : Nat → MainMenu → MainMenu
  | 0, m => m
  | fuel + 1, m =>
    if m.menuItemIndex < 6 then
      let m := { m with frameIndex := 0 }
      let m := addSpriteSlot m
      skipLoop fuel { m with menuItemIndex := m.menuItemIndex + 1 }
    else m

/-- The method `MainMenu::doFrame` (lines 117-171). `currTime` is `g_system->getMillis()` (a `uint32`) and
`getCount i` is `_menuItems[i]->getCount()`. Both loops get the fuel `6 - _menuItemIndex`,
which is the number of iterations they make. -/
def doFrame (getCount : Int → Int) (currTime : Nat) (m : MainMenu) : MainMenu :=
  if currTime < m.delayTimeout then m
  else
    let m := { m with delayTimeout := (currTime + MADS_MENU_ANIM_DELAY) % 2 ^ 32 }
    if m.selectedIndex ≠ -1 then
      if m.frameIndex = getCount 0 then
        handleAction m (Action.ofSelected m.selectedIndex)
      else
        let m := rotateLoop 6 { m with menuItemIndex := 0 }
        { m with frameIndex := m.frameIndex + 1 }
    else if m.menuItemIndex = 6 then m
    else if m.skipFlag ∧ 0 ≤ m.menuItemIndex then
      let m := skipLoop (6 - m.menuItemIndex).toNat m
      { m with cursorVisible := true }
    else
      if m.menuItemIndex = -1 ∨ m.frameIndex = 0 then
        let m := { m with menuItemIndex := m.menuItemIndex + 1 }
        if m.menuItemIndex = 6 then
          { m with cursorVisible := true }
        else
          let m := { m with frameIndex := getCount m.menuItemIndex - 1 }
          addSpriteSlot m
      else
        let m := { m with frameIndex := m.frameIndex - 1 }
        addSpriteSlot m

/-- The method `MainMenu::onEvent` (lines 195-304): the returned flag and the new state. -/
def onEvent (m : MainMenu) (event : Event) : Bool × MainMenu :=
  if m.selectedIndex ≠ -1 then (false, m)
  else
    match event with
    | Event.EVENT_KEYDOWN keycode =>
      match keycode with
      | KeyCode.KEYCODE_ESCAPE => (true, handleAction m Action.EXIT)
      | KeyCode.KEYCODE_F6 => (true, handleAction m Action.EXIT)
      | KeyCode.KEYCODE_F1 => (true, handleAction m Action.START_GAME)
      | KeyCode.KEYCODE_F2 => (true, handleAction m Action.RESUME_GAME)
      | KeyCode.KEYCODE_F3 => (true, handleAction m Action.SHOW_INTRO)
      | KeyCode.KEYCODE_F4 => (true, handleAction m Action.CREDITS)
      | KeyCode.KEYCODE_F5 => (true, handleAction m Action.QUOTES)
      | KeyCode.KEYCODE_s =>
        let m := { m with menuItemIndex := -1 }
        let m := { m with skipFlag := false }
        (true, { m with cursorVisible := false })
      | KeyCode.other => (false, { m with skipFlag := true })
    | Event.EVENT_LBUTTONDOWN item =>
      if m.cursorVisible then
        let m := { m with buttonDown := true }
        let menuIndex := item
        if menuIndex ≠ m.highlightedIndex then
          let m := { m with highlightedIndex := menuIndex }
          if m.highlightedIndex ≠ -1 then
            let m := { m with frameIndex := m.highlightedIndex }
            (true, addSpriteSlot m)
          else (true, m)
        else (true, m)
      else
        (true, { m with skipFlag := true })
    | Event.EVENT_MOUSEMOVE item =>
      if m.buttonDown then
        let menuIndex := item
        if menuIndex ≠ m.highlightedIndex then
          let m := if m.highlightedIndex ≠ -1 then unhighlightItem m else m
          if menuIndex ≠ -1 then
            let m := { m with highlightedIndex := menuIndex }
            let m := { m with frameIndex := m.highlightedIndex }
            (false, addSpriteSlot m)
          else (false, m)
        else (false, m)
      else (false, m)
    | Event.EVENT_LBUTTONUP =>
      let m := { m with buttonDown := false }
      if m.highlightedIndex ≠ -1 then
        let m := { m with selectedIndex := m.highlightedIndex }
        let m := unhighlightItem m
        (true, { m with frameIndex := 0 })
      else (true, m)
    | Event.other => (false, m)

/-- One call made by the event loop of `MenuView::show`: a `doFrame` at a clock value, or an
`onEvent` delivered by the events manager. -/
inductive Call where
  | frame (currTime : Nat)
  | event (e : Event)
deriving DecidableEq, Repr

/-- The state after one call. -/
def step (getCount : Int → Int) (m : MainMenu) : Call → MainMenu
  | Call.frame currTime => doFrame getCount currTime m
  | Call.event e => (onEvent m e).2

/-- The state after a sequence of calls. -/
def run (getCount : Int → Int) (m : MainMenu) (calls : List Call) : MainMenu :=
  calls.foldl (step getCount) m

/-- The value `getHighlightedItem` may return for an event: `-1` (no item) up to `6`. -/
def Call.itemsInRange : Call → Prop
  | Call.event (Event.EVENT_LBUTTONDOWN item) => -1 ≤ item ∧ item ≤ 6
  | Call.event (Event.EVENT_MOUSEMOVE item) => -1 ≤ item ∧ item ≤ 6
  | _ => True

instance (c : Call) : Decidable c.itemsInRange := by
  unfold Call.itemsInRange
  split <;> infer_instance

/-- The interleaving that restarts the animation while the button is held: any other key
(skip), two frames 70 ms apart (the second completes the menu and shows the cursor), the left
button pressed on no item, the `s` key, then a mouse move onto item 2. -/
def restartWhileButtonDown : List Call :=
  [ Call.event (Event.EVENT_KEYDOWN KeyCode.other),
    Call.frame 0,
    Call.frame 70,
    Call.event (Event.EVENT_LBUTTONDOWN (-1)),
    Call.event (Event.EVENT_KEYDOWN KeyCode.KEYCODE_s),
    Call.event (Event.EVENT_MOUSEMOVE 2) ]

/-- Every read of the 7-entry arrays `_menuItems` and `_menuItemIndexes` recorded so far was
at an index `0 <= _menuItemIndex <= 6`. -/
def MainMenu.readsInBounds (m : MainMenu) : Prop :=
  ∀ i ∈ m.slotReads, 0 ≤ i ∧ i ≤ 6

end Nebular
end MADS

/-! ## Theorems: `scaleUpWidth` -/

namespace Sci

/-! ### Truncating division -/

theorem tdiv_mul_le_of_nonneg {n d : Int} (hn : 0 ≤ n) (hd : 0 < d) :
    Int.tdiv n d * d ≤ n ∧ n < Int.tdiv n d * d + d := by
  rw [Int.tdiv_eq_ediv hn hd.le]
  have h1 := Int.emod_add_ediv n d
  have h2 := Int.emod_nonneg n hd.ne'
  have h3 := Int.emod_lt_of_pos n hd
  constructor <;> nlinarith

theorem tdiv_mul_ge_of_nonpos {n d : Int} (hn : n ≤ 0) (hd : 0 < d) :
    n ≤ Int.tdiv n d * d ∧ Int.tdiv n d * d < n + d := by
  have h := tdiv_mul_le_of_nonneg (n := -n) (by omega) hd
  rw [Int.neg_tdiv] at h
  constructor <;> nlinarith [h.1, h.2]

theorem tdiv_mono {a b d : Int} (hd : 0 < d) (hab : a ≤ b) : Int.tdiv a d ≤ Int.tdiv b d := by
  rcases le_or_lt 0 a with ha | ha
  · rw [Int.tdiv_eq_ediv ha hd.le, Int.tdiv_eq_ediv (ha.trans hab) hd.le]
    exact Int.ediv_le_ediv hd hab
  · rcases le_or_lt 0 b with hb | hb
    · have h1 : Int.tdiv a d ≤ 0 := by
        have := tdiv_mul_ge_of_nonpos ha.le hd
        by_contra hc
        push_neg at hc
        nlinarith [this.2]
      exact h1.trans (Int.tdiv_nonneg hb hd.le)
    · have h1 := tdiv_mul_ge_of_nonpos ha.le hd
      have h2 := tdiv_mul_ge_of_nonpos hb.le hd
      by_contra hc
      push_neg at hc
      have : Int.tdiv b d + 1 ≤ Int.tdiv a d := hc
      nlinarith [h1.1, h1.2, h2.1, h2.2]

theorem ceilDiv_spec (n d : Int) (hd : 0 < d) :
    n ≤ ceilDiv n d * d ∧ ceilDiv n d * d < n + d := by
  unfold ceilDiv
  have h1 := Int.emod_add_ediv (-n) d
  have h2 := Int.emod_nonneg (-n) hd.ne'
  have h3 := Int.emod_lt_of_pos (-n) hd
  constructor <;> nlinarith

/-- The value `ceilDiv n d` is the least integer `k` with `n ≤ k * d`. -/
theorem ceilDiv_least (n d k : Int) (hd : 0 < d) : ceilDiv n d ≤ k ↔ n ≤ k * d := by
  have h := ceilDiv_spec n d hd
  constructor
  · intro hk
    nlinarith [h.1]
  · intro hk
    by_contra hc
    push_neg at hc
    have : k + 1 ≤ ceilDiv n d := hc
    nlinarith [h.2]

/-- The executable `ceilDiv` agrees with the ceiling of the exact rational quotient. -/
theorem ceilDiv_eq_ceil (n d : Int) (hd : 0 < d) : ceilDiv n d = ⌈(n : ℚ) / (d : ℚ)⌉ := by
  symm
  have hq : (0 : ℚ) < (d : ℚ) := by exact_mod_cast hd
  apply le_antisymm
  · rw [Int.ceil_le, div_le_iff₀ hq]
    have := (ceilDiv_spec n d hd).1
    exact_mod_cast this
  · rw [ceilDiv_least n d _ hd]
    have h := Int.le_ceil ((n : ℚ) / (d : ℚ))
    rw [div_le_iff₀ hq] at h
    exact_mod_cast h

/-- On a non-negative product the code computes the ceiling quotient. -/
theorem scaleUpWidth_ceilDiv_of_nonneg (s d v : Int) (hn : 0 ≤ v * s) (hd : 0 < d) :
    scaleUpWidth s d v = ceilDiv (v * s) d := by
  unfold scaleUpWidth
  have hm : 0 ≤ v * s + d - 1 := by omega
  have h := tdiv_mul_le_of_nonneg hm hd
  apply le_antisymm
  · by_contra hc
    push_neg at hc
    have h1 := (ceilDiv_spec (v * s) d hd).1
    have : ceilDiv (v * s) d + 1 ≤ Int.tdiv (v * s + d - 1) d := hc
    nlinarith [h.1]
  · rw [ceilDiv_least _ _ _ hd]
    nlinarith [h.2]

/-- C1 (as stated, refuted): at `value = -4`, `scriptWidth = 1`, `scaledWidth = 3` the code
returns `(-4 + 3 - 1) / 3 = -2 / 3 = 0` (C++ truncation), while `ceil (-4 / 3) = -1`. -/
theorem scaleUpWidth_not_ceil_negative :
    (0 : Int) < 1 ∧ (0 : Int) < 3 ∧ scaleUpWidth 1 3 (-4) = 0 ∧
      ⌈(((-4 : Int) * 1 : Int) : ℚ) / ((3 : Int) : ℚ)⌉ = -1 ∧
      scaleUpWidth 1 3 (-4) ≠ ⌈(((-4 : Int) * 1 : Int) : ℚ) / ((3 : Int) : ℚ)⌉ := by
  have hc : ⌈(((-4 : Int) * 1 : Int) : ℚ) / ((3 : Int) : ℚ)⌉ = -1 := by
    rw [Int.ceil_eq_iff]
    norm_num
  have hs : scaleUpWidth 1 3 (-4) = 0 := by decide
  refine ⟨by decide, by decide, hs, hc, ?_⟩
  rw [hs, hc]
  decide

/-- C1 (amended): for every non-negative `value` and positive `scriptWidth`, `scaledWidth`,
`scaleUpWidth value` is the ceiling of the exact quotient `value * scriptWidth / scaledWidth`:
it equals the executable `ceilDiv`, equals the rational ceiling, and is the least integer `k`
with `value * scriptWidth ≤ k * scaledWidth`. -/
theorem scaleUpWidth_eq_ceil (scriptWidth scaledWidth value : Int)
    (hv : 0 ≤ value) (hs : 0 < scriptWidth) (hd : 0 < scaledWidth) :
    scaleUpWidth scriptWidth scaledWidth value = ceilDiv (value * scriptWidth) scaledWidth ∧
      scaleUpWidth scriptWidth scaledWidth value
        = ⌈((value * scriptWidth : Int) : ℚ) / (scaledWidth : ℚ)⌉ ∧
      ∀ k : Int, scaleUpWidth scriptWidth scaledWidth value ≤ k ↔
        value * scriptWidth ≤ k * scaledWidth := by
  have hn : 0 ≤ value * scriptWidth := Int.mul_nonneg hv hs.le
  have he := scaleUpWidth_ceilDiv_of_nonneg scriptWidth scaledWidth value hn hd
  refine ⟨he, ?_, ?_⟩
  · rw [he, ceilDiv_eq_ceil _ _ hd]
  · intro k
    rw [he]
    exact ceilDiv_least _ _ k hd

/-- Witness for C1 (amended): `value = 5`, `scriptWidth = 320`, `scaledWidth = 640`. -/
theorem scaleUpWidth_eq_ceil_witness :
    (0 : Int) ≤ 5 ∧ (0 : Int) < 320 ∧ (0 : Int) < 640 ∧ scaleUpWidth 320 640 5 = 3 ∧
      scaleUpWidth 320 640 5 = ceilDiv (5 * 320) 640 :=
  ⟨by decide, by decide, by decide, by decide,
    (scaleUpWidth_eq_ceil 320 640 5 (by decide) (by decide) (by decide)).1⟩

/-- C2: for every integer `value` (negative ones included), every non-negative `scriptWidth`
and every positive `scaledWidth`, the result `r = scaleUpWidth value` satisfies
`r * scaledWidth ≥ value * scriptWidth`: the converted length never covers less than the
exact rational length. -/
theorem scaleUpWidth_mul_ge (scriptWidth scaledWidth value : Int)
    (_hs : 0 ≤ scriptWidth) (hd : 0 < scaledWidth) :
    value * scriptWidth ≤ scaleUpWidth scriptWidth scaledWidth value * scaledWidth := by
  unfold scaleUpWidth
  rcases le_or_lt 0 (value * scriptWidth + scaledWidth - 1) with hm | hm
  · have h := tdiv_mul_le_of_nonneg hm hd
    by_contra hc
    push_neg at hc
    have h2 := h.2
    omega
  · have h := tdiv_mul_ge_of_nonpos hm.le hd
    have h1 := h.1
    omega

/-- Witness for C2 at a negative value: `value = -4`, `scriptWidth = 1`, `scaledWidth = 3`. -/
theorem scaleUpWidth_mul_ge_witness :
    (0 : Int) ≤ 1 ∧ (0 : Int) < 3 ∧ (-4 : Int) * 1 ≤ scaleUpWidth 1 3 (-4) * 3 :=
  ⟨by decide, by decide, scaleUpWidth_mul_ge 1 3 (-4) (by decide) (by decide)⟩

/-- C3: for a fixed axis ratio (`scriptWidth ≥ 0`, `scaledWidth > 0`) `scaleUpWidth` is
monotonically non-decreasing in `value`, over all integers `a ≤ b`. -/
theorem scaleUpWidth_mono (scriptWidth scaledWidth a b : Int)
    (hs : 0 ≤ scriptWidth) (hd : 0 < scaledWidth) (hab : a ≤ b) :
    scaleUpWidth scriptWidth scaledWidth a ≤ scaleUpWidth scriptWidth scaledWidth b := by
  unfold scaleUpWidth
  apply tdiv_mono hd
  have := Int.mul_le_mul_of_nonneg_right hab hs
  omega

/-- Witness for C3: `a = -7 ≤ b = 2` at the ratio `320 / 640`. -/
theorem scaleUpWidth_mono_witness :
    (0 : Int) ≤ 320 ∧ (0 : Int) < 640 ∧ (-7 : Int) ≤ 2 ∧
      scaleUpWidth 320 640 (-7) ≤ scaleUpWidth 320 640 2 :=
  ⟨by decide, by decide, by decide,
    scaleUpWidth_mono 320 640 (-7) 2 (by decide) (by decide) (by decide)⟩

/-- C8: `scaleUpWidth 0 = 0` for every `scriptWidth` and every `scaledWidth ≥ 1`. -/
theorem scaleUpWidth_zero (scriptWidth scaledWidth : Int) (hd : 1 ≤ scaledWidth) :
    scaleUpWidth scriptWidth scaledWidth 0 = 0 := by
  unfold scaleUpWidth
  apply Int.tdiv_eq_zero_of_lt <;> omega

/-- Witness for C8: `scriptWidth = -3`, `scaledWidth = 1`. -/
theorem scaleUpWidth_zero_witness : (1 : Int) ≤ 1 ∧ scaleUpWidth (-3) 1 0 = 0 :=
  ⟨by decide, scaleUpWidth_zero (-3) 1 (by decide)⟩

end Sci

/-! ## Theorems: measuring, `scaleRect`, line breaking and the text rect -/

namespace Sci

/-- At a 1:1 ratio `scaleUpWidth` returns a non-negative width unchanged. -/
theorem scaleUpWidth_self (d w : Int) (hw : 0 ≤ w) (hd : 0 < d) : scaleUpWidth d d w = w := by
  unfold scaleUpWidth
  have hm : 0 ≤ w * d + d - 1 := by nlinarith
  have h := tdiv_mul_le_of_nonneg hm hd
  apply le_antisymm
  · by_contra hc
    push_neg at hc
    have : w + 1 ≤ Int.tdiv (w * d + d - 1) d := hc
    nlinarith [h.1]
  · by_contra hc
    push_neg at hc
    have : Int.tdiv (w * d + d - 1) d + 1 ≤ w := hc
    nlinarith [h.2]

theorem getTextWidth_nonneg (charWidth : Char → Nat) (text : List Char) (index length : Nat) :
    0 ≤ getTextWidth charWidth text index length := by
  unfold getTextWidth
  exact Int.ofNat_nonneg _

/-- C4: at a 1:1 scale ratio (`scriptWidth = scaledWidth > 0`) the scale-aware
`getTextWidth(text, index, length)` over a supplied string returns the same value as the
unscaled `getTextWidth(index, length)` over that string as the loaded text, for every font,
string, index and length. -/
theorem getTextWidth_agree_at_unit_scale (charWidth : Char → Nat) (scaledWidth : Int)
    (text : List Char) (index length : Nat) (hd : 0 < scaledWidth) :
    getTextWidthOfString charWidth scaledWidth scaledWidth text index length
      = getTextWidth charWidth text index length := by
  unfold getTextWidthOfString
  exact scaleUpWidth_self scaledWidth _ (getTextWidth_nonneg charWidth text index length) hd

/-- Witness for C4: a font of 6 pixels per character, `"HELLO"` from index 1 for 3 characters,
at 320:320. -/
theorem getTextWidth_agree_at_unit_scale_witness :
    (0 : Int) < 320 ∧
      getTextWidthOfString (fun _ => 6) 320 320 [ 'H', 'E', 'L', 'L', 'O' ] 1 3 = 18 ∧
      getTextWidthOfString (fun _ => 6) 320 320 [ 'H', 'E', 'L', 'L', 'O' ] 1 3
        = getTextWidth (fun _ => 6) [ 'H', 'E', 'L', 'L', 'O' ] 1 3 :=
  ⟨by decide, by decide,
    getTextWidth_agree_at_unit_scale (fun _ => 6) 320 [ 'H', 'E', 'L', 'L', 'O' ] 1 3
      (by decide)⟩

/-- C5: `scaleRect rect` has `left` and `right` equal to `rect.left` and `rect.right` times
`scaledWidth / scriptWidth`, and `top` and `bottom` equal to `rect.top` and `rect.bottom` times
`scaledHeight / scriptHeight` (the product converted to an integer coordinate); the Y ratio has
no influence on `left` and `right`, the X ratio none on `top` and `bottom`; and at a 1:1 ratio
on both axes the result is `rect`. -/
theorem scaleRect_per_axis (scriptWidth scriptHeight scaledWidth scaledHeight : Int)
    (rect : Rect) :
    scaleRect scriptWidth scriptHeight scaledWidth scaledHeight rect
        = { left := Int.tdiv (rect.left * scaledWidth) scriptWidth
            top := Int.tdiv (rect.top * scaledHeight) scriptHeight
            right := Int.tdiv (rect.right * scaledWidth) scriptWidth
            bottom := Int.tdiv (rect.bottom * scaledHeight) scriptHeight } ∧
      (∀ scriptHeight2 scaledHeight2 : Int,
        (scaleRect scriptWidth scriptHeight2 scaledWidth scaledHeight2 rect).left
            = (scaleRect scriptWidth scriptHeight scaledWidth scaledHeight rect).left ∧
          (scaleRect scriptWidth scriptHeight2 scaledWidth scaledHeight2 rect).right
            = (scaleRect scriptWidth scriptHeight scaledWidth scaledHeight rect).right) ∧
      (∀ scriptWidth2 scaledWidth2 : Int,
        (scaleRect scriptWidth2 scriptHeight scaledWidth2 scaledHeight rect).top
            = (scaleRect scriptWidth scriptHeight scaledWidth scaledHeight rect).top ∧
          (scaleRect scriptWidth2 scriptHeight scaledWidth2 scaledHeight rect).bottom
            = (scaleRect scriptWidth scriptHeight scaledWidth scaledHeight rect).bottom) ∧
      (scriptWidth ≠ 0 → scriptHeight ≠ 0 →
        scaleRect scriptWidth scriptHeight scriptWidth scriptHeight rect = rect) := by
  refine ⟨rfl, fun _ _ => ⟨rfl, rfl⟩, fun _ _ => ⟨rfl, rfl⟩, ?_⟩
  intro hw hh
  cases rect
  simp [scaleRect, mul, Rational.mulCoord, hw, hh]

/-- Evaluation for C5: the rect `(1, 2, 3, 5)` from a 320x200 script space into a 640x480
bitmap, and a 1:1 scaling of the same rect. -/
theorem scaleRect_per_axis_witness :
    scaleRect 320 200 640 480 { left := 1, top := 2, right := 3, bottom := 5 }
        = { left := 2, top := 4, right := 6, bottom := 12 } ∧
      scaleRect 320 200 320 200 { left := 1, top := 2, right := 3, bottom := 5 }
        = { left := 1, top := 2, right := 3, bottom := 5 } :=
  ⟨by decide,
    (scaleRect_per_axis 320 200 320 200 { left := 1, top := 2, right := 3, bottom := 5 }).2.2.2
      (by decide) (by decide)⟩

/-- The scan returns an index after `start` and inside the text. -/
theorem getLongestScan_bounds (charWidth : Char → Nat) (maxWidth : Int) (start : Nat) :
    ∀ (l : List Char) (i acc : Nat) (lastWs : Option Nat), start ≤ i →
      (∀ j, lastWs = some j → start ≤ j ∧ j < i) → (l ≠ [] ∨ start < i) →
      start < getLongestScan charWidth maxWidth start l i acc lastWs ∧
        getLongestScan charWidth maxWidth start l i acc lastWs ≤ i + l.length := by
  intro l
  induction l with
  | nil =>
    intro i acc lastWs _ _ hne
    simp only [getLongestScan, List.length_nil]
    rcases hne with hne | hne
    · exact absurd rfl hne
    · omega
  | cons c rest ih =>
    intro i acc lastWs hi hj _
    simp only [getLongestScan, List.length_cons]
    by_cases hex : maxWidth < ((acc + charWidth c : Nat) : Int)
    · rw [if_pos hex]
      cases lastWs with
      | some j =>
        have := hj j rfl
        simp only
        omega
      | none =>
        simp only
        by_cases hws : c.isWhitespace = true
        · rw [if_pos hws]
          omega
        · rw [if_neg hws]
          omega
    · rw [if_neg hex]
      have h := ih (i + 1) (acc + charWidth c) (if c.isWhitespace then some i else lastWs)
        (by omega)
        (by
          intro j hjj
          by_cases hws : c.isWhitespace = true
          · rw [if_pos hws] at hjj
            cases hjj
            omega
          · rw [if_neg hws] at hjj
            have := hj j hjj
            omega)
        (Or.inr (by omega))
      omega

theorem getLongest_bounds (charWidth : Char → Nat) (text : List Char) (charIndex : Nat)
    (maxWidth : Int) (h : charIndex < text.length) :
    charIndex < (getLongest charWidth text charIndex maxWidth).2 ∧
      (getLongest charWidth text charIndex maxWidth).2 ≤ text.length := by
  have hne : text.drop charIndex ≠ [] := by
    intro he
    have := congrArg List.length he
    simp at this
    omega
  have hb := getLongestScan_bounds charWidth maxWidth charIndex (text.drop charIndex) charIndex 0
    none (le_refl _) (by intro j hj; cases hj) (Or.inl hne)
  simp only [List.length_drop] at hb
  simp only [getLongest]
  omega

theorem lineStarts_isSome (charWidth : Char → Nat) (text : List Char) (maxWidth : Int) :
    ∀ (fuel charIndex : Nat), text.length - charIndex ≤ fuel →
      (lineStarts charWidth text maxWidth fuel charIndex).isSome = true := by
  intro fuel
  induction fuel with
  | zero =>
    intro charIndex h
    have : text.length ≤ charIndex := by omega
    simp [lineStarts, this]
  | succ n ih =>
    intro charIndex h
    unfold lineStarts
    split_ifs with hlen
    · rfl
    · have hb := getLongest_bounds charWidth text charIndex maxWidth (by omega)
      rw [Option.isSome_map']
      apply ih
      omega

/-- C6: for every loaded text, every start index before the end of the text and every
`maxWidth`, `getLongest` consumes at least one character: the index it writes back is strictly
greater than the index it was given, is the given index plus the returned count, and does not
pass the end of the text; so iterating it to exhaustion terminates, within as many calls as
there are characters left, and the next line starts at the index written back. -/
theorem getLongest_progress (charWidth : Char → Nat) (text : List Char) (charIndex : Nat)
    (maxWidth : Int) (h : charIndex < text.length) :
    0 < (getLongest charWidth text charIndex maxWidth).1 ∧
      charIndex < (getLongest charWidth text charIndex maxWidth).2 ∧
      (getLongest charWidth text charIndex maxWidth).2
        = charIndex + (getLongest charWidth text charIndex maxWidth).1 ∧
      (getLongest charWidth text charIndex maxWidth).2 ≤ text.length ∧
      ∃ rest, lineStarts charWidth text maxWidth (text.length - charIndex) charIndex
          = some (charIndex :: rest) ∧
        lineStarts charWidth text maxWidth (text.length - charIndex - 1)
          (getLongest charWidth text charIndex maxWidth).2 = some rest := by
  have hb := getLongest_bounds charWidth text charIndex maxWidth h
  have h1 : (getLongest charWidth text charIndex maxWidth).1
      = (getLongest charWidth text charIndex maxWidth).2 - charIndex := rfl
  refine ⟨by omega, hb.1, by omega, hb.2, ?_⟩
  have hs := lineStarts_isSome charWidth text maxWidth (text.length - charIndex - 1)
    (getLongest charWidth text charIndex maxWidth).2 (by omega)
  obtain ⟨rest, hrest⟩ := Option.isSome_iff_exists.mp hs
  refine ⟨rest, ?_, hrest⟩
  obtain ⟨n, hn⟩ : ∃ n, text.length - charIndex = n + 1 := ⟨text.length - charIndex - 1, by omega⟩
  have hn1 : text.length - charIndex - 1 = n := by omega
  rw [hn1] at hrest
  rw [hn]
  simp only [lineStarts]
  rw [if_neg (by omega), hrest]
  rfl

/-- Witness for C6: the text `"WIDE"` in a font of 8 pixels per character with `maxWidth = 3`,
smaller than the width of the first character: one character is consumed. -/
theorem getLongest_progress_witness :
    0 < [ 'W', 'I', 'D', 'E' ].length ∧
      getLongest (fun _ => 8) [ 'W', 'I', 'D', 'E' ] 0 3 = (1, 1) ∧
      0 < (getLongest (fun _ => 8) [ 'W', 'I', 'D', 'E' ] 0 3).2 :=
  ⟨by decide, by decide,
    (getLongest_progress (fun _ => 8) [ 'W', 'I', 'D', 'E' ] 0 3 (by decide)).2.1⟩

/-- C7: for every bitmap width and height and every requested rect, whether it extends past
the bitmap or lies outside of it, the text rect of either `createFontBitmap` overload is
clipped to the bitmap: `0 ≤ left ≤ right ≤ width` and `0 ≤ top ≤ bottom ≤ height`. -/
theorem createFontBitmap_textRect_clipped (width height : Nat) (rect : Rect)
    (hv : rect.isValidRect) :
    (0 ≤ (createFontBitmap width height rect).left ∧
        (createFontBitmap width height rect).left ≤ (createFontBitmap width height rect).right ∧
        (createFontBitmap width height rect).right ≤ width ∧
        0 ≤ (createFontBitmap width height rect).top ∧
        (createFontBitmap width height rect).top ≤ (createFontBitmap width height rect).bottom ∧
        (createFontBitmap width height rect).bottom ≤ height) ∧
      (0 ≤ (createFontBitmapCel width height rect).left ∧
        (createFontBitmapCel width height rect).left
          ≤ (createFontBitmapCel width height rect).right ∧
        (createFontBitmapCel width height rect).right ≤ width ∧
        0 ≤ (createFontBitmapCel width height rect).top ∧
        (createFontBitmapCel width height rect).top
          ≤ (createFontBitmapCel width height rect).bottom ∧
        (createFontBitmapCel width height rect).bottom ≤ height) := by
  obtain ⟨h1, h2⟩ := hv
  have hw : (0 : Int) ≤ width := Int.ofNat_nonneg _
  have hh : (0 : Int) ≤ height := Int.ofNat_nonneg _
  simp only [createFontBitmapCel, createFontBitmap, Rect.clipToBitmap]
  refine ⟨⟨?_, ?_, ?_, ?_, ?_, ?_⟩, ⟨?_, ?_, ?_, ?_, ?_, ?_⟩⟩ <;> omega

/-- Witness for C7: a 100x40 bitmap and the rect `(-5, 10, 300, 50)`, which extends past the
bitmap on three sides. -/
theorem createFontBitmap_textRect_clipped_witness :
    Rect.isValidRect { left := -5, top := 10, right := 300, bottom := 50 } ∧
      createFontBitmap 100 40 { left := -5, top := 10, right := 300, bottom := 50 }
        = { left := 0, top := 10, right := 100, bottom := 40 } ∧
      (createFontBitmap 100 40 { left := -5, top := 10, right := 300, bottom := 50 }).right
        ≤ ((100 : Nat) : Int) :=
  ⟨by decide, by decide,
    (createFontBitmap_textRect_clipped 100 40
      { left := -5, top := 10, right := 300, bottom := 50 } (by decide)).1.2.2.1⟩

end Sci

/-! ## Theorems: the main menu -/

namespace MADS
namespace Nebular

theorem rotateLoop_selectedIndex :
    ∀ (fuel : Nat) (m : MainMenu), (rotateLoop fuel m).selectedIndex = m.selectedIndex := by
  intro fuel
  induction fuel with
  | zero => intro m; rfl
  | succ n ih =>
    intro m
    simp only [rotateLoop]
    by_cases h6 : m.menuItemIndex < 6
    · rw [if_pos h6, ih]
      by_cases hs : m.menuItemIndex ≠ m.selectedIndex
      · rw [if_pos hs]; rfl
      · rw [if_neg hs]
    · rw [if_neg h6]

theorem skipLoop_selectedIndex :
    ∀ (fuel : Nat) (m : MainMenu), (skipLoop fuel m).selectedIndex = m.selectedIndex := by
  intro fuel
  induction fuel with
  | zero => intro m; rfl
  | succ n ih =>
    intro m
    simp only [skipLoop]
    by_cases h6 : m.menuItemIndex < 6
    · rw [if_pos h6, ih]; rfl
    · rw [if_neg h6]

/-- The fuel given to `rotateLoop` is enough: with at least `6 - _menuItemIndex` units the loop
ends because its condition `_menuItemIndex < 6` is false. -/
theorem rotateLoop_exit :
    ∀ (fuel : Nat) (m : MainMenu), 6 - m.menuItemIndex ≤ fuel →
      ¬ (rotateLoop fuel m).menuItemIndex < 6 := by
  intro fuel
  induction fuel with
  | zero =>
    intro m h
    simp only [rotateLoop]
    omega
  | succ n ih =>
    intro m h
    simp only [rotateLoop]
    by_cases h6 : m.menuItemIndex < 6
    · rw [if_pos h6]
      apply ih
      by_cases hs : m.menuItemIndex ≠ m.selectedIndex
      · rw [if_pos hs]
        simp only [addSpriteSlot]
        omega
      · rw [if_neg hs]
        simp only
        omega
    · rw [if_neg h6]
      exact h6

/-- The fuel given to `skipLoop` is enough: with at least `6 - _menuItemIndex` units the loop
ends because its condition `_menuItemIndex < 6` is false. -/
theorem skipLoop_exit :
    ∀ (fuel : Nat) (m : MainMenu), 6 - m.menuItemIndex ≤ fuel →
      ¬ (skipLoop fuel m).menuItemIndex < 6 := by
  intro fuel
  induction fuel with
  | zero =>
    intro m h
    simp only [skipLoop]
    omega
  | succ n ih =>
    intro m h
    simp only [skipLoop]
    by_cases h6 : m.menuItemIndex < 6
    · rw [if_pos h6]
      apply ih
      simp only [addSpriteSlot]
      omega
    · rw [if_neg h6]
      exact h6

/-- No `doFrame` call assigns `_selectedIndex`. -/
theorem doFrame_selectedIndex (getCount : Int → Int) (currTime : Nat) (m : MainMenu) :
    (doFrame getCount currTime m).selectedIndex = m.selectedIndex := by
  unfold doFrame
  by_cases ht : currTime < m.delayTimeout
  · rw [if_pos ht]
  · rw [if_neg ht]
    dsimp only
    split_ifs <;>
      simp only [handleAction, addSpriteSlot, rotateLoop_selectedIndex, skipLoop_selectedIndex]

/-- With an item selected `onEvent` returns `false` and changes nothing. -/
theorem onEvent_of_selected (m : MainMenu) (e : Event) (h : m.selectedIndex ≠ -1) :
    onEvent m e = (false, m) := by
  unfold onEvent
  rw [if_pos h]

theorem run_selectedIndex (getCount : Int → Int) :
    ∀ (calls : List Call) (m : MainMenu), m.selectedIndex ≠ -1 →
      (run getCount m calls).selectedIndex = m.selectedIndex := by
  intro calls
  induction calls with
  | nil => intro m _; rfl
  | cons c rest ih =>
    intro m h
    have hstep : (step getCount m c).selectedIndex = m.selectedIndex := by
      cases c with
      | frame t => exact doFrame_selectedIndex getCount t m
      | event e =>
        simp only [step]
        rw [onEvent_of_selected m e h]
    have := ih (step getCount m c) (by rw [hstep]; exact h)
    simp only [run, List.foldl_cons] at this ⊢
    rw [this, hstep]

/-- C9 (evaluation at the failing interleaving): from the constructor's state with the cursor
hidden, the calls `restartWhileButtonDown` (every item in `-1 .. 6`) end with an
`addSpriteSlot` that reads `_menuItems` and `_menuItemIndexes` at `_menuItemIndex = -1`. -/
theorem addSpriteSlot_reads_at_minus_one :
    restartWhileButtonDown.all (fun c => decide c.itemsInRange) = true ∧
      (run (fun _ => 4) MainMenu.init restartWhileButtonDown).slotReads
        = [0, 0, 1, 2, 3, 4, 5, -1] ∧
      (run (fun _ => 4) MainMenu.init restartWhileButtonDown).buttonDown = true ∧
      ¬ (run (fun _ => 4) MainMenu.init restartWhileButtonDown).readsInBounds := by
  have hr : (run (fun _ => 4) MainMenu.init restartWhileButtonDown).slotReads
      = [0, 0, 1, 2, 3, 4, 5, -1] := by decide
  refine ⟨by decide, hr, by decide, ?_⟩
  intro hb
  have := hb (-1) (by rw [hr]; simp)
  omega

/-- C10: once `_selectedIndex` differs from `-1`, every `onEvent` call, for every event,
returns `false` and leaves the whole state unchanged (no action dispatched, no field touched),
no `doFrame` call changes `_selectedIndex`, and `_selectedIndex` keeps its value through every
later sequence of `doFrame` and `onEvent` calls. -/
theorem selection_is_final (getCount : Int → Int) (m : MainMenu) (h : m.selectedIndex ≠ -1) :
    (∀ e : Event, onEvent m e = (false, m)) ∧
      (∀ currTime : Nat, (doFrame getCount currTime m).selectedIndex = m.selectedIndex) ∧
      (∀ calls : List Call, (run getCount m calls).selectedIndex = m.selectedIndex) ∧
      (∀ (calls : List Call) (e : Event),
        onEvent (run getCount m calls) e = (false, run getCount m calls)) := by
  refine ⟨fun e => onEvent_of_selected m e h, fun t => doFrame_selectedIndex getCount t m,
    fun calls => run_selectedIndex getCount calls m h, ?_⟩
  intro calls e
  apply onEvent_of_selected
  rw [run_selectedIndex getCount calls m h]
  exact h

/-- Witness for C10: the state after the menu is completed, item 3 is pressed and released. -/
theorem selection_is_final_witness :
    (run (fun _ => 4) MainMenu.init
        [ Call.event (Event.EVENT_KEYDOWN KeyCode.other), Call.frame 0, Call.frame 70,
          Call.event (Event.EVENT_LBUTTONDOWN 3), Call.event Event.EVENT_LBUTTONUP ]).selectedIndex
        = 3 ∧
      onEvent (run (fun _ => 4) MainMenu.init
        [ Call.event (Event.EVENT_KEYDOWN KeyCode.other), Call.frame 0, Call.frame 70,
          Call.event (Event.EVENT_LBUTTONDOWN 3), Call.event Event.EVENT_LBUTTONUP ])
        (Event.EVENT_KEYDOWN KeyCode.KEYCODE_s)
        = (false, run (fun _ => 4) MainMenu.init
          [ Call.event (Event.EVENT_KEYDOWN KeyCode.other), Call.frame 0, Call.frame 70,
            Call.event (Event.EVENT_LBUTTONDOWN 3), Call.event Event.EVENT_LBUTTONUP ]) :=
  ⟨by decide,
    (selection_is_final (fun _ => 4) _ (by decide)).1 (Event.EVENT_KEYDOWN KeyCode.KEYCODE_s)⟩

end Nebular
end MADS
